import Mathlib

/-!
Verification of the media_manager concurrency core against its specification.

Shallow embedding conventions:
* Python float timestamps are modelled as rationals (and, for the watcher
  polling loop, as integer tenths of a second, the loop's sleep quantum).
* Python dicts keyed by strings are modelled as association lists where an
  update conses a fresh binding; lookup takes the most recent binding.
* Fallible calls (the transfer primitive, verification, notify) are modelled
  as Except values supplied by the environment; an exception that a caller
  observes propagates as the Except.error branch.
* asyncio.Lock is modelled by its locked flag; the list of current holders is
  a ghost field recording whose acquire most recently succeeded without a
  subsequent release (nobody holds an unlocked lock).
-/

/- ===== Token coordinator (media_manager/common/notification_service.py) ===== -/

/-- State of the shared notification token.  The code keeps only an
asyncio.Lock; its truth is the locked flag.  holders is the ghost list of
components whose acquire_token returned True and whose holding has not ended
by a release of the lock. -/
structure TokenState where
  locked : Bool
  holders : List String
deriving DecidableEq

def initToken : TokenState := ⟨false, []⟩

/-- release_token (notification_service.py lines 44-52): releases whenever the
lock is locked; the code never checks which service holds it.  Releasing ends
the current holding, whoever the caller is. -/
def NotificationService.release_token (s : TokenState) (_service_name : String) : TokenState :=
  if s.locked then ⟨false, []⟩ else s

inductive TokenEvent where
  | acquireOk (owner : String)
  | acquireTimeout (owner : String)
  | releaseTok (caller : String)

/-- Transitions of the token coordinator.  acquire_token awaits the lock with
a 30 s timeout: it can succeed only when the lock is free (then the lock is
taken and the call returns True), or time out while the lock is held (state
unchanged, returns False).  release_token follows the source function. -/
inductive TokenStep : TokenState → TokenEvent → TokenState → Prop where
  | acquire (s : TokenState) (o : String) (h : s.locked = false) :
      TokenStep s (TokenEvent.acquireOk o) ⟨true, o :: s.holders⟩
  | timeout (s : TokenState) (o : String) (h : s.locked = true) :
      TokenStep s (TokenEvent.acquireTimeout o) s
  | release (s : TokenState) (c : String) :
      TokenStep s (TokenEvent.releaseTok c) (NotificationService.release_token s c)

inductive TokenReachable : TokenState → Prop where
  | init : TokenReachable initToken
  | step (s : TokenState) (e : TokenEvent) (s' : TokenState) :
      TokenReachable s → TokenStep s e s' → TokenReachable s'

/-- Result of ensure_token_and_notify: final lock state, whether notify was
invoked, and the returned value or propagated exception. -/
structure EnsureResult where
  state : TokenState
  sent : Bool
  result : Except String (Option String)

/-- ensure_token_and_notify (notification_service.py lines 240-250): if
acquire_token succeeds, run notify inside try with release_token in finally
(so the token is released whether notify returns or raises, and the exception
then propagates); if acquire_token times out, return None having sent
nothing.  acquired is the environment's acquire outcome, notifyResult the
outcome of the notify call. -/
def NotificationService.ensure_token_and_notify (s : TokenState) (owner : String)
    (acquired : Bool) (notifyResult : Except String (Option String)) : EnsureResult :=
  if acquired then
    let afterAcquire : TokenState := ⟨true, owner :: s.holders⟩
    { state := NotificationService.release_token afterAcquire owner
      sent := true
      result := notifyResult }
  else
    { state := s, sent := false, result := Except.ok none }

/- ===== Rate limiters (media_manager/common/rate_limiters.py) ===== -/

/-- Association-list lookup with default 0, matching defaultdict(float). -/
def lookupQ : List (String × ℚ) → String → ℚ
  | [], _ => 0
  | (k', v) :: rest, k => if k' = k then v else lookupQ rest k

structure AsyncRateLimiter where
  min_interval : ℚ
  last_update : List (String × ℚ)
deriving DecidableEq

/-- AsyncRateLimiter.can_update (rate_limiters.py lines 30-36): allowed iff
now - last_update[key] is at least min_interval; when allowed the call
records now for the key atomically. -/
def AsyncRateLimiter.can_update (st : AsyncRateLimiter) (key : String) (now : ℚ) :
    Bool × AsyncRateLimiter :=
  if st.min_interval ≤ now - lookupQ st.last_update key then
    (true, { st with last_update := (key, now) :: st.last_update })
  else
    (false, st)

/-- A sequence of can_update calls, each a (key, clock-reading) pair. -/
def AsyncRateLimiter.runCalls : AsyncRateLimiter → List (String × ℚ) → AsyncRateLimiter × List Bool
  | st, [] => (st, [])
  | st, (k, t) :: rest =>
    let r := st.can_update k t
    let rr := AsyncRateLimiter.runCalls r.2 rest
    (rr.1, r.1 :: rr.2)

structure ThreadedRateLimiter where
  min_interval : ℚ
  last_update : List (String × ℚ)
deriving DecidableEq

/-- ThreadedRateLimiter.can_update (rate_limiters.py lines 59-66): the same
check-and-record as the async limiter, executed under the instance lock. -/
def ThreadedRateLimiter.can_update (st : ThreadedRateLimiter) (key : String) (now : ℚ) :
    Bool × ThreadedRateLimiter :=
  if st.min_interval ≤ now - lookupQ st.last_update key then
    (true, { st with last_update := (key, now) :: st.last_update })
  else
    (false, st)

def ThreadedRateLimiter.runCalls : ThreadedRateLimiter → List (String × ℚ) → ThreadedRateLimiter × List Bool
  | st, [] => (st, [])
  | st, (k, t) :: rest =>
    let r := st.can_update k t
    let rr := ThreadedRateLimiter.runCalls r.2 rest
    (rr.1, r.1 :: rr.2)

/-- Checks that every result of a call whose key is K came out false. -/
def checkAllKeyFalse (K : String) : List (String × ℚ) → List Bool → Bool
  | [], _ => true
  | _ :: _, [] => true
  | (k, _) :: cs, b :: bs => (if k = K then !b else true) && checkAllKeyFalse K cs bs

/-- Python truthiness of the optional speed ceiling: None and 0.0 are falsy. -/
def pyTruthy : Option ℚ → Bool
  | none => false
  | some v => v ≠ 0

structure SpeedLimiter where
  max_speed_mbps : Option ℚ
  bytes_sent : ℚ
  last_reset : ℚ
deriving DecidableEq

/-- SpeedLimiter._reset_if_needed (rate_limiters.py lines 91-96). -/
def SpeedLimiter.reset_if_needed (st : SpeedLimiter) (now : ℚ) : SpeedLimiter :=
  if 1 < now - st.last_reset then { st with bytes_sent := 0, last_reset := now } else st

/-- SpeedLimiter._get_delay (rate_limiters.py lines 98-116); both time.time()
readings of one call are modelled by the same now.  Returns the computed
delay and the state after the internal reset. -/
def SpeedLimiter.get_delay (st : SpeedLimiter) (now : ℚ) (_chunk_size : ℚ) : ℚ × SpeedLimiter :=
  if pyTruthy st.max_speed_mbps = false then (0, st)
  else
    let max_bytes_per_sec := (st.max_speed_mbps.getD 0) * 125000
    let st1 := st.reset_if_needed now
    if st1.bytes_sent = 0 then (0, st1)
    else
      let elapsed := now - st1.last_reset
      let target_time := st1.bytes_sent / max_bytes_per_sec
      (max 0 (target_time - elapsed), st1)

/-- SpeedLimiter.limit (rate_limiters.py lines 118-131): returns the slept
delay and the updated state; with a falsy ceiling it returns before touching
any state. -/
def SpeedLimiter.limit (st : SpeedLimiter) (now : ℚ) (chunk_size : ℚ) : ℚ × SpeedLimiter :=
  if pyTruthy st.max_speed_mbps = false then (0, st)
  else
    let r := st.get_delay now chunk_size
    (r.1, { r.2 with bytes_sent := r.2.bytes_sent + chunk_size })

/- ===== Download manager (media_manager/downloader/download_task.py) ===== -/

/-- The fields of DownloadTask that the verified claims touch. -/
structure DTask where
  file_id : String
  filename : String
  status : String
deriving DecidableEq

def lookupTask : List (String × DTask) → String → Option DTask
  | [], _ => none
  | (k', v) :: rest, k => if k' = k then some v else lookupTask rest k

/-- Dict assignment active[k] = v, modelled by consing a fresh binding. -/
def setTask (m : List (String × DTask)) (k : String) (v : DTask) : List (String × DTask) :=
  (k, v) :: m

/-- del active[k]: the key is gone afterwards. -/
def delTask (m : List (String × DTask)) (k : String) : List (String × DTask) :=
  m.filter (fun p => p.1 != k)

structure ProcessResult where
  active : List (String × DTask)
  task : DTask
  attempts : ℕ
deriving DecidableEq

/-- Default download configuration (config_manager.py lines 179-180). -/
def defaultMaxRetries : ℕ := 3

/-- DownloadManager._process_download (download_task.py lines 252-297):
set status downloading and insert into the active map; try the transfer once
(outcomes 0 — the source has no retry loop, so exactly one oracle value is
consulted and attempts is 1 by the shape of the code); on success optionally
verify, then mark completed; on any exception mark the task failed; finally
delete the task from the active map.  Notifications and the stats update are
elided; they do not affect status or the active map. -/
def DownloadManager.process_download (verify_downloads : Bool)
    (active : List (String × DTask)) (task : DTask)
    (outcomes : ℕ → Except String Unit) (verifyOutcome : Except String Unit) :
    ProcessResult :=
  let t1 : DTask := { task with status := "downloading" }
  let a1 := setTask active t1.file_id t1
  match outcomes 0 with
  | Except.ok _ =>
    match (if verify_downloads then verifyOutcome else Except.ok ()) with
    | Except.ok _ =>
      let t2 : DTask := { t1 with status := "completed" }
      ⟨delTask a1 t1.file_id, t2, 1⟩
    | Except.error _ =>
      let t2 : DTask := { t1 with status := "failed" }
      ⟨delTask a1 t1.file_id, t2, 1⟩
  | Except.error _ =>
    let t2 : DTask := { t1 with status := "failed" }
    ⟨delTask a1 t1.file_id, t2, 1⟩

/-- A transient transfer error: the first attempt fails, a retry would
succeed. -/
def retryOutcomes : ℕ → Except String Unit :=
  fun n => if n = 0 then Except.error "transient network error" else Except.ok ()

def exampleTask : DTask := ⟨"f1", "movie.mkv", "queued"⟩

/-- Python truthiness of Optional[int]: None and 0 are falsy. -/
def pyTruthyInt : Option ℤ → Bool
  | none => false
  | some v => v ≠ 0

/-- Python division that raises ZeroDivisionError, as an Option. -/
def pyDiv (a b : ℚ) : Option ℚ := if b = 0 then none else some (a / b)

/-- DownloadTask.progress_percentage (download_task.py lines 56-61): a falsy
total_size short-circuits to 0; otherwise bytes_downloaded / total_size * 100.
none models a raised exception. -/
def DownloadTask.progress_percentage (bytes_downloaded : ℤ) (total_size : Option ℤ) :
    Option ℚ :=
  if pyTruthyInt total_size = false then some 0
  else (pyDiv (bytes_downloaded : ℚ) ((total_size.getD 0 : ℤ) : ℚ)).map (fun q => q * 100)

/- ===== Watcher (src/.history/media_manager/watcher/file_mover_20250429133321.py) ===== -/

structure WatchState where
  processing : List String
  dispatched : List String
deriving DecidableEq

/-- First atomic section of MediaFileHandler._handle_new_file (lines 63-67):
under the processing lock, return ignored if the path is present, else add
it.  Second component: whether the handler proceeds. -/
def MediaFileHandler.checkAndAdd (s : WatchState) (p : String) : WatchState × Bool :=
  if p ∈ s.processing then (s, false)
  else ({ s with processing := p :: s.processing }, true)

/-- The finally block (lines 91-95): discard the path from the processing
set.  The source's try covers the dedup early return, so this runs on every
exit of the handler, the ignored path included. -/
def MediaFileHandler.finallyDiscard (s : WatchState) (p : String) : WatchState :=
  { s with processing := s.processing.erase p }

/-- Handing the stabilized file to the categorizer (process_file call). -/
def MediaFileHandler.dispatchFile (s : WatchState) (p : String) : WatchState :=
  { s with dispatched := p :: s.dispatched }

inductive StabOutcome where
  | ready
  | timedOut
  | cancelled
deriving DecidableEq

/-- MediaFileHandler._handle_new_file (lines 60-95) run without interleaving:
check-and-add; if proceeding, stabilization yields ready, timeout or
cancellation; on ready and not stopping the file is dispatched; the finally
block always discards the path — on the deduplicated early return as well. -/
def MediaFileHandler.handle_new_file (s : WatchState) (p : String)
    (outcome : StabOutcome) (stopping : Bool) : WatchState :=
  let r := MediaFileHandler.checkAndAdd s p
  if r.2 then
    match outcome with
    | StabOutcome.ready =>
      let s2 := if stopping then r.1 else MediaFileHandler.dispatchFile r.1 p
      MediaFileHandler.finallyDiscard s2 p
    | _ => MediaFileHandler.finallyDiscard r.1 p
  else
    MediaFileHandler.finallyDiscard r.1 p

inductive WaitResult where
  | ready (tick : ℕ)
  | timedOut
  | cancelled
deriving DecidableEq

/-- Loop body of MediaFileHandler._wait_for_file_ready (lines 97-129), in
discrete time: one tick is the 0.1 s sleep quantum, so the 30 s timeout is
300 ticks and the 1 s stability window is 10 ticks.  The clock reads
start + k at iteration k; obs k is the (size, mtime) observation (none when
the file does not exist); mtime values are absolute deciseconds.  fuel bounds
the recursion and exceeds the loop guard, so exhaustion is unreachable. -/
def MediaFileHandler.waitLoop (stopping : ℕ → Bool) (obs : ℕ → Option (ℤ × ℤ))
    (start : ℤ) : ℕ → ℕ → ℤ → ℤ → WaitResult
  | 0, _, _, _ => WaitResult.timedOut
  | fuel + 1, k, lastSize, lastMod =>
    if (start + k) - start < 300 then
      if stopping k then WaitResult.cancelled
      else
        match obs k with
        | none => MediaFileHandler.waitLoop stopping obs start fuel (k + 1) lastSize lastMod
        | some (sz, m) =>
          if sz = lastSize ∧ m = lastMod then
            if 10 ≤ (start + k) - lastMod then WaitResult.ready k
            else MediaFileHandler.waitLoop stopping obs start fuel (k + 1) lastSize lastMod
          else MediaFileHandler.waitLoop stopping obs start fuel (k + 1) sz m
    else WaitResult.timedOut

/-- MediaFileHandler._wait_for_file_ready with its initial state
last_size = -1, last_modified = 0 and timeout 30 s. -/
def MediaFileHandler.wait_for_file_ready (stopping : ℕ → Bool)
    (obs : ℕ → Option (ℤ × ℤ)) (start : ℤ) : WaitResult :=
  MediaFileHandler.waitLoop stopping obs start 301 0 (-1) 0

def neverStopping : ℕ → Bool := fun _ => false

/-- The spec scenario: the file appears and grows for three polling
intervals (ticks 0, 1, 2, mtime tracking the clock), then stops changing.
The last observed change is at tick 2. -/
def obsGrowThenStop : ℕ → Option (ℤ × ℤ) :=
  fun k =>
    if k = 0 then some (1, 10000)
    else if k = 1 then some (2, 10001)
    else some (3, 10002)

/- ===== Theorems ===== -/

/-- Reachable-state invariant of the token coordinator: an unlocked token has
no holder, and there is never more than one holder. -/
theorem token_invariant (s : TokenState) (h : TokenReachable s) :
    (s.locked = false → s.holders = []) ∧ s.holders.length ≤ 1 := by
  induction h with
  | init => simp [initToken]
  | step s e s' hr hstep ih =>
    cases hstep with
    | acquire o hfree =>
      have hempty : s.holders = [] := ih.1 hfree
      simp [hempty]
    | timeout o hlock => exact ih
    | release c =>
      unfold NotificationService.release_token
      by_cases hl : s.locked = true
      · simp [hl]
      · simp [hl]
        exact ⟨ih.1 (by simpa using hl), ih.2⟩

/-- C1: in every reachable state of the notification service at most one
component holds the token; while some component holds it no further
acquire_token call can succeed; and an acquire_token call that times out
leaves the state unchanged, so the timed-out caller gains no holding. -/
theorem C1_token_mutual_exclusion (s : TokenState) (h : TokenReachable s) :
    s.holders.length ≤ 1 ∧
    (∀ a, a ∈ s.holders → ∀ o s', ¬ TokenStep s (TokenEvent.acquireOk o) s') ∧
    (∀ o s', TokenStep s (TokenEvent.acquireTimeout o) s' → s' = s) := by
  have inv := token_invariant s h
  refine ⟨inv.2, ?_, ?_⟩
  · intro a ha o s' hstep
    cases hstep with
    | acquire o2 hfree =>
      rw [inv.1 hfree] at ha
      exact absurd ha (List.not_mem_nil a)
  · intro o s' hstep
    cases hstep with
    | timeout o2 hlock => rfl

/-- Witness for C1 at the reachable state in which the downloader has
acquired the token. -/
theorem C1_token_mutual_exclusion_witness :
    (⟨true, ["downloader"]⟩ : TokenState).holders.length ≤ 1 :=
  (C1_token_mutual_exclusion ⟨true, ["downloader"]⟩
    (TokenReachable.step initToken (TokenEvent.acquireOk "downloader")
      ⟨true, ["downloader"]⟩ TokenReachable.init
      (TokenStep.acquire initToken "downloader" rfl))).1

/-- C6 counterexample: with the downloader holding the token, release_token
called by the categorizer (not the holder) is not a no-op — it frees the
lock held by the other owner. -/
theorem C6_counterexample :
    NotificationService.release_token ⟨true, ["downloader"]⟩ "categorizer" ≠
      (⟨true, ["downloader"]⟩ : TokenState) ∧
    (NotificationService.release_token ⟨true, ["downloader"]⟩ "categorizer").locked = false := by
  decide

/-- C6 amended: release_token is a no-op (and raises no error) only when the
lock is not locked; when the lock is locked, release_token frees it whatever
the caller — the coordinator does not track the holder. -/
theorem C6_release_semantics (s : TokenState) (caller : String) :
    (s.locked = false → NotificationService.release_token s caller = s) ∧
    (s.locked = true → NotificationService.release_token s caller = ⟨false, []⟩) := by
  constructor
  · intro h
    simp [NotificationService.release_token, h]
  · intro h
    simp [NotificationService.release_token, h]

/-- Witness for C6 at an unlocked state and at a state held by another
owner. -/
theorem C6_release_semantics_witness :
    NotificationService.release_token ⟨false, []⟩ "watcher" = (⟨false, []⟩ : TokenState) ∧
    NotificationService.release_token ⟨true, ["downloader"]⟩ "watcher" = (⟨false, []⟩ : TokenState) :=
  ⟨(C6_release_semantics ⟨false, []⟩ "watcher").1 rfl,
   (C6_release_semantics ⟨true, ["downloader"]⟩ "watcher").2 rfl⟩

/-- C7: ensure_token_and_notify releases the token after the notify action
whether it returns or raises (the final lock state is free with no holder and
the action's outcome is passed through), and on an acquire timeout it returns
None with nothing sent and the lock state untouched. -/
theorem C7_ensure_token_releases (s : TokenState) (owner : String)
    (nr : Except String (Option String)) :
    NotificationService.ensure_token_and_notify s owner false nr =
      ⟨s, false, Except.ok none⟩ ∧
    (NotificationService.ensure_token_and_notify s owner true nr).state =
      (⟨false, []⟩ : TokenState) ∧
    (NotificationService.ensure_token_and_notify s owner true nr).sent = true ∧
    (NotificationService.ensure_token_and_notify s owner true nr).result = nr := by
  refine ⟨rfl, ?_, rfl, rfl⟩
  simp [NotificationService.ensure_token_and_notify, NotificationService.release_token]

/-- C10: progress_percentage is total — it never divides by an unknown or
zero total — and returns 0 whenever total_size is None or 0. -/
theorem C10_progress_percentage_total (b : ℤ) (t : Option ℤ) :
    (DownloadTask.progress_percentage b t).isSome = true ∧
    ((t = none ∨ t = some 0) → DownloadTask.progress_percentage b t = some 0) := by
  constructor
  · unfold DownloadTask.progress_percentage
    rcases t with _ | v
    · simp [pyTruthyInt]
    · by_cases hv : v = 0
      · simp [pyTruthyInt, hv]
      · simp [pyTruthyInt, hv, pyDiv, Int.cast_eq_zero]
  · intro ht
    rcases ht with rfl | rfl <;> simp [DownloadTask.progress_percentage, pyTruthyInt]

/-- Witness for C10 at an unknown total and at a zero total. -/
theorem C10_progress_percentage_total_witness :
    DownloadTask.progress_percentage 5 none = some 0 ∧
    DownloadTask.progress_percentage 7 (some 0) = some 0 :=
  ⟨(C10_progress_percentage_total 5 none).2 (Or.inl rfl),
   (C10_progress_percentage_total 7 (some 0)).2 (Or.inr rfl)⟩

/-- The key deleted by delTask is absent afterwards. -/
theorem lookupTask_delTask (m : List (String × DTask)) (k : String) :
    lookupTask (delTask m k) k = none := by
  induction m with
  | nil => rfl
  | cons hd rest ih =>
    obtain ⟨k', v⟩ := hd
    unfold delTask at ih ⊢
    simp only [List.filter]
    by_cases hk : k' = k
    · subst hk
      simp only [bne_self_eq_false]
      exact ih
    · have hb : (k' != k) = true := bne_iff_ne.mpr hk
      simp only [hb, lookupQ]
      simp only [lookupTask, if_neg hk]
      exact ih

def c4Run : ProcessResult :=
  DownloadManager.process_download true [] exampleTask
    (fun _ => Except.error "network error") (Except.ok ())

/-- C4 (code bug exhibit): when the transfer primitive raises, the worker's
processing of the task returns with status failed — not the error value the
claim, the spec data model and DownloadTask.get_status_text use — while the
task is correctly removed from the active map and is no longer
downloading. -/
theorem C4_failed_not_error :
    c4Run.task.status = "failed" ∧
    c4Run.task.status ≠ "error" ∧
    c4Run.task.status ≠ "downloading" ∧
    lookupTask c4Run.active "f1" = none := by
  decide

def c5Run : ProcessResult :=
  DownloadManager.process_download false [] exampleTask retryOutcomes (Except.ok ())

/-- C5 counterexample: a transient transfer error whose retry would succeed,
with the default max_retries of 3, still leaves the task failed after a
single attempt — the manager performs no retry at all, contradicting the
claimed up-to-max_retries retry loop. -/
theorem C5_counterexample :
    c5Run.attempts = 1 ∧
    c5Run.attempts < defaultMaxRetries ∧
    c5Run.task.status = "failed" ∧
    retryOutcomes 1 = Except.ok () := by
  refine ⟨by decide, by decide, by decide, rfl⟩

/-- C5 amended: the manager never retries — every processing of a task makes
exactly one transfer attempt, a first-attempt error immediately marks the
task failed, and the finished task is removed from the active map rather than
re-enqueued (max_retries and retry_delay exist only as unused configuration
defaults). -/
theorem C5_no_retry (verify : Bool) (active : List (String × DTask)) (task : DTask)
    (outcomes : ℕ → Except String Unit) (v : Except String Unit) :
    (DownloadManager.process_download verify active task outcomes v).attempts = 1 ∧
    (∀ e, outcomes 0 = Except.error e →
      (DownloadManager.process_download verify active task outcomes v).task.status = "failed" ∧
      lookupTask (DownloadManager.process_download verify active task outcomes v).active
        task.file_id = none) := by
  constructor
  · unfold DownloadManager.process_download
    rcases h0 : outcomes 0 with e | u
    · simp [h0]
    · rcases hv : (if verify then v else Except.ok ()) with e' | u' <;> simp [h0, hv]
  · intro e he
    unfold DownloadManager.process_download
    rw [he]
    exact ⟨rfl, lookupTask_delTask _ _⟩

/-- Witness for C5 at the transient-error oracle. -/
theorem C5_no_retry_witness :
    c5Run.task.status = "failed" ∧ lookupTask c5Run.active "f1" = none :=
  (C5_no_retry false [] exampleTask retryOutcomes (Except.ok ())).2
    "transient network error" rfl

/-- C9: SpeedLimiter.limit with no configured ceiling is a no-op computing
zero delay and leaving the whole limiter state unchanged, and for any
ceiling, SpeedLimiter.get_delay computes zero delay when the bytes-sent
counter is zero (the first chunk after a rolling reset). -/
theorem C9_speed_limiter_no_delay (st : SpeedLimiter) (now chunk : ℚ) :
    (st.max_speed_mbps = none → SpeedLimiter.limit st now chunk = (0, st)) ∧
    (st.bytes_sent = 0 → (SpeedLimiter.get_delay st now chunk).1 = 0) := by
  constructor
  · intro h
    simp [SpeedLimiter.limit, pyTruthy, h]
  · intro h
    unfold SpeedLimiter.get_delay
    by_cases hp : pyTruthy st.max_speed_mbps = false
    · simp [hp]
    · unfold SpeedLimiter.reset_if_needed
      by_cases hr : 1 < now - st.last_reset
      · simp [hp, hr]
      · simp [hp, hr, h]

/-- Witness for C9 at a limiter with no ceiling and a limiter with a ceiling
and a zero bytes-sent counter. -/
theorem C9_speed_limiter_no_delay_witness :
    SpeedLimiter.limit ⟨none, 3, 0⟩ 5 100 = (0, ⟨none, 3, 0⟩) ∧
    (SpeedLimiter.get_delay ⟨some 8, 0, 0⟩ 5 100).1 = 0 :=
  ⟨(C9_speed_limiter_no_delay ⟨none, 3, 0⟩ 5 100).1 rfl,
   (C9_speed_limiter_no_delay ⟨some 8, 0, 0⟩ 5 100).2 rfl⟩

def watchA : WatchState := (MediaFileHandler.checkAndAdd ⟨[], []⟩ "a.mkv").1

def watchAfterB : WatchState :=
  MediaFileHandler.handle_new_file watchA "a.mkv" StabOutcome.ready false

/-- C3 (code bug exhibit): the first event for a path adds it to the
processing set and proceeds; a duplicate event arriving while the path is
still processing is deduplicated and dispatches nothing — but its early
return still runs the finally block, which discards the path from the
processing set while the first handler is mid-flight, so a further event for
the same path passes the dedup check and is processed concurrently. -/
theorem C3_dedup_discard_regression :
    (MediaFileHandler.checkAndAdd ⟨[], []⟩ "a.mkv").2 = true ∧
    (MediaFileHandler.checkAndAdd watchA "a.mkv").2 = false ∧
    watchAfterB.dispatched = watchA.dispatched ∧
    watchAfterB.processing = [] ∧
    (MediaFileHandler.checkAndAdd watchAfterB "a.mkv").2 = true := by
  decide

/-- C8 counterexample: in the spec scenario (file appears at clock 10000
deciseconds, grows at ticks 0, 1, 2, then stops changing; last observed
change at tick 2), stabilization is declared at tick 12 — ten polling
intervals (one full second) after the last change — and not at tick 3, one
polling interval after it. -/
theorem C8_counterexample :
    MediaFileHandler.wait_for_file_ready neverStopping obsGrowThenStop 10000 =
      WaitResult.ready 12 ∧
    MediaFileHandler.wait_for_file_ready neverStopping obsGrowThenStop 10000 ≠
      WaitResult.ready 3 := by
  decide

/-- Whatever tick the wait loop declares ready at, the observation there is
at least one second (ten polling ticks) older than the clock. -/
def stableAtLeastOneSec (obs : ℕ → Option (ℤ × ℤ)) (start : ℤ) (k : ℕ) : Prop :=
  ∃ sz m, obs k = some (sz, m) ∧ 10 ≤ (start + k) - m

/-- Soundness of the wait loop: a ready result is only ever produced at a
tick whose recorded modification time is at least ten ticks (one second) in
the past. -/
theorem waitLoop_ready_stable (stopping : ℕ → Bool) (obs : ℕ → Option (ℤ × ℤ))
    (start : ℤ) :
    ∀ (fuel k : ℕ) (lastSize lastMod : ℤ) (k' : ℕ),
      MediaFileHandler.waitLoop stopping obs start fuel k lastSize lastMod =
        WaitResult.ready k' →
      stableAtLeastOneSec obs start k' := by
  intro fuel
  induction fuel with
  | zero =>
    intro k ls lm k' h
    simp [MediaFileHandler.waitLoop] at h
  | succ n ih =>
    intro k ls lm k' h
    rw [MediaFileHandler.waitLoop] at h
    by_cases hg : (start + k) - start < 300
    · rw [if_pos hg] at h
      by_cases hs : stopping k = true
      · rw [if_pos hs] at h
        exact absurd h (by simp)
      · rw [if_neg hs] at h
        cases hobs : obs k with
        | none =>
          simp only [hobs] at h
          exact ih _ _ _ _ h
        | some pr =>
          obtain ⟨sz, m⟩ := pr
          simp only [hobs] at h
          by_cases heq : sz = ls ∧ m = lm
          · rw [if_pos heq] at h
            by_cases hst : 10 ≤ (start + k) - lm
            · rw [if_pos hst] at h
              have hk : k = k' := by simpa using h
              subst hk
              exact ⟨sz, m, hobs, by rw [heq.2]; exact hst⟩
            · rw [if_neg hst] at h
              exact ih _ _ _ _ h
          · rw [if_neg heq] at h
            exact ih _ _ _ _ h
    · rw [if_neg hg] at h
      exact absurd h (by simp)

/-- C8 amended: the file is dispatched once its size and modification time
have been observed unchanged and the recorded modification time is at least
one full second (ten 0.1 s polling intervals) old — never merely one polling
interval after the last change; in the spec scenario this is tick 12, ten
ticks after the last change at tick 2. -/
theorem C8_stabilization_one_second (stopping : ℕ → Bool)
    (obs : ℕ → Option (ℤ × ℤ)) (start : ℤ) (k' : ℕ) :
    (MediaFileHandler.wait_for_file_ready stopping obs start = WaitResult.ready k' →
      stableAtLeastOneSec obs start k') ∧
    MediaFileHandler.wait_for_file_ready neverStopping obsGrowThenStop 10000 =
      WaitResult.ready 12 := by
  constructor
  · intro h
    exact waitLoop_ready_stable stopping obs start 301 0 (-1) 0 k' h
  · decide

/-- Witness for C8: the spec scenario declared ready at tick 12, and the
theorem yields that tick 12 is at least one second after the recorded
modification time. -/
theorem C8_stabilization_one_second_witness :
    stableAtLeastOneSec obsGrowThenStop 10000 12 :=
  (C8_stabilization_one_second neverStopping obsGrowThenStop 10000 12).1 (by decide)

/-- After a permitted can_update for key K recorded time t, a run of further
calls whose K-calls all happen less than min_interval after t leaves every
K-call refused, K's recorded time at t, and the interval unchanged (async
limiter). -/
theorem asyncRun_key_blocked (K : String) (t I : ℚ) :
    ∀ (calls : List (String × ℚ)) (st : AsyncRateLimiter),
      st.min_interval = I →
      lookupQ st.last_update K = t →
      (∀ p ∈ calls, p.1 = K → p.2 - t < I) →
      checkAllKeyFalse K calls (st.runCalls calls).2 = true ∧
      (st.runCalls calls).1.min_interval = I ∧
      lookupQ (st.runCalls calls).1.last_update K = t := by
  intro calls
  induction calls with
  | nil =>
    intro st hI h1 _
    exact ⟨rfl, hI, h1⟩
  | cons hd rest ih =>
    obtain ⟨k, t'⟩ := hd
    intro st hI h1 hb
    have hbrest : ∀ p ∈ rest, p.1 = K → p.2 - t < I :=
      fun p hp => hb p (List.mem_cons_of_mem _ hp)
    by_cases hk : k = K
    · subst hk
      have hlt : t' - t < I := hb (k, t') (List.mem_cons_self _ _) rfl
      have hcu : st.can_update k t' = (false, st) := by
        unfold AsyncRateLimiter.can_update
        rw [h1, hI, if_neg (not_le.mpr hlt)]
      simp only [AsyncRateLimiter.runCalls, hcu]
      have ihr := ih st hI h1 hbrest
      refine ⟨?_, ihr.2.1, ihr.2.2⟩
      simp only [checkAllKeyFalse, if_pos rfl, Bool.not_false, Bool.true_and]
      exact ihr.1
    · by_cases hc : st.min_interval ≤ t' - lookupQ st.last_update k
      · have hcu : st.can_update k t' =
            (true, { st with last_update := (k, t') :: st.last_update }) := by
          unfold AsyncRateLimiter.can_update
          rw [if_pos hc]
        have h1' : lookupQ
            ({ st with last_update := (k, t') :: st.last_update } : AsyncRateLimiter).last_update
              K = t := by
          simp only [lookupQ, if_neg hk]
          exact h1
        have ihr := ih { st with last_update := (k, t') :: st.last_update } hI h1' hbrest
        simp only [AsyncRateLimiter.runCalls, hcu]
        refine ⟨?_, ihr.2.1, ihr.2.2⟩
        simp only [checkAllKeyFalse, if_neg hk, Bool.true_and]
        exact ihr.1
      · have hcu : st.can_update k t' = (false, st) := by
          unfold AsyncRateLimiter.can_update
          rw [if_neg hc]
        have ihr := ih st hI h1 hbrest
        simp only [AsyncRateLimiter.runCalls, hcu]
        refine ⟨?_, ihr.2.1, ihr.2.2⟩
        simp only [checkAllKeyFalse, if_neg hk, Bool.true_and]
        exact ihr.1

/-- Mirror of asyncRun_key_blocked for the threaded limiter, whose
can_update body is identical under its lock. -/
theorem threadedRun_key_blocked (K : String) (t I : ℚ) :
    ∀ (calls : List (String × ℚ)) (st : ThreadedRateLimiter),
      st.min_interval = I →
      lookupQ st.last_update K = t →
      (∀ p ∈ calls, p.1 = K → p.2 - t < I) →
      checkAllKeyFalse K calls (st.runCalls calls).2 = true ∧
      (st.runCalls calls).1.min_interval = I ∧
      lookupQ (st.runCalls calls).1.last_update K = t := by
  intro calls
  induction calls with
  | nil =>
    intro st hI h1 _
    exact ⟨rfl, hI, h1⟩
  | cons hd rest ih =>
    obtain ⟨k, t'⟩ := hd
    intro st hI h1 hb
    have hbrest : ∀ p ∈ rest, p.1 = K → p.2 - t < I :=
      fun p hp => hb p (List.mem_cons_of_mem _ hp)
    by_cases hk : k = K
    · subst hk
      have hlt : t' - t < I := hb (k, t') (List.mem_cons_self _ _) rfl
      have hcu : st.can_update k t' = (false, st) := by
        unfold ThreadedRateLimiter.can_update
        rw [h1, hI, if_neg (not_le.mpr hlt)]
      simp only [ThreadedRateLimiter.runCalls, hcu]
      have ihr := ih st hI h1 hbrest
      refine ⟨?_, ihr.2.1, ihr.2.2⟩
      simp only [checkAllKeyFalse, if_pos rfl, Bool.not_false, Bool.true_and]
      exact ihr.1
    · by_cases hc : st.min_interval ≤ t' - lookupQ st.last_update k
      · have hcu : st.can_update k t' =
            (true, { st with last_update := (k, t') :: st.last_update }) := by
          unfold ThreadedRateLimiter.can_update
          rw [if_pos hc]
        have h1' : lookupQ
            ({ st with last_update := (k, t') :: st.last_update } : ThreadedRateLimiter).last_update
              K = t := by
          simp only [lookupQ, if_neg hk]
          exact h1
        have ihr := ih { st with last_update := (k, t') :: st.last_update } hI h1' hbrest
        simp only [ThreadedRateLimiter.runCalls, hcu]
        refine ⟨?_, ihr.2.1, ihr.2.2⟩
        simp only [checkAllKeyFalse, if_neg hk, Bool.true_and]
        exact ihr.1
      · have hcu : st.can_update k t' = (false, st) := by
          unfold ThreadedRateLimiter.can_update
          rw [if_neg hc]
        have ihr := ih st hI h1 hbrest
        simp only [ThreadedRateLimiter.runCalls, hcu]
        refine ⟨?_, ihr.2.1, ihr.2.2⟩
        simp only [checkAllKeyFalse, if_neg hk, Bool.true_and]
        exact ihr.1

/-- C2: for both the async and the threaded update-rate limiter, if a
can_update call for key K is permitted at time now (recording now for K),
then in any subsequent run of calls, every call for K made before
now + min_interval is refused — so two permitted calls for the same key are
never less than min_interval apart. -/
theorem C2_update_rate_limiter_spacing (K : String) (now : ℚ) :
    (∀ (st st1 : AsyncRateLimiter) (calls : List (String × ℚ)),
      st.can_update K now = (true, st1) →
      (∀ p ∈ calls, p.1 = K → p.2 < now + st.min_interval) →
      checkAllKeyFalse K calls (st1.runCalls calls).2 = true) ∧
    (∀ (st st1 : ThreadedRateLimiter) (calls : List (String × ℚ)),
      st.can_update K now = (true, st1) →
      (∀ p ∈ calls, p.1 = K → p.2 < now + st.min_interval) →
      checkAllKeyFalse K calls (st1.runCalls calls).2 = true) := by
  constructor
  · intro st st1 calls h hb
    unfold AsyncRateLimiter.can_update at h
    by_cases hc : st.min_interval ≤ now - lookupQ st.last_update K
    · rw [if_pos hc] at h
      have hst1 : st1 = { st with last_update := (K, now) :: st.last_update } := by
        have := congrArg Prod.snd h
        simpa using this.symm
      subst hst1
      have h1 : lookupQ ((K, now) :: st.last_update) K = now := by
        simp [lookupQ]
      have hb' : ∀ p ∈ calls, p.1 = K → p.2 - now < st.min_interval := by
        intro p hp hpk
        have := hb p hp hpk
        linarith
      exact (asyncRun_key_blocked K now st.min_interval calls
        { st with last_update := (K, now) :: st.last_update } rfl h1 hb').1
    · rw [if_neg hc] at h
      exact absurd (congrArg Prod.fst h) (by simp)
  · intro st st1 calls h hb
    unfold ThreadedRateLimiter.can_update at h
    by_cases hc : st.min_interval ≤ now - lookupQ st.last_update K
    · rw [if_pos hc] at h
      have hst1 : st1 = { st with last_update := (K, now) :: st.last_update } := by
        have := congrArg Prod.snd h
        simpa using this.symm
      subst hst1
      have h1 : lookupQ ((K, now) :: st.last_update) K = now := by
        simp [lookupQ]
      have hb' : ∀ p ∈ calls, p.1 = K → p.2 - now < st.min_interval := by
        intro p hp hpk
        have := hb p hp hpk
        linarith
      exact (threadedRun_key_blocked K now st.min_interval calls
        { st with last_update := (K, now) :: st.last_update } rfl h1 hb').1
    · rw [if_neg hc] at h
      exact absurd (congrArg Prod.fst h) (by simp)

/-- Witness for C2: with min_interval 2, a permitted call at time 10 blocks
the call at time 11 for the same key, in both limiters. -/
theorem C2_update_rate_limiter_spacing_witness :
    checkAllKeyFalse "chat" [("chat", 11)]
      (((⟨2, [("chat", 10)]⟩ : AsyncRateLimiter).runCalls [("chat", 11)]).2) = true ∧
    checkAllKeyFalse "chat" [("chat", 11)]
      (((⟨2, [("chat", 10)]⟩ : ThreadedRateLimiter).runCalls [("chat", 11)]).2) = true := by
  constructor
  · exact (C2_update_rate_limiter_spacing "chat" 10).1 ⟨2, []⟩ ⟨2, [("chat", 10)]⟩
      [("chat", 11)]
      (by simp [AsyncRateLimiter.can_update, lookupQ]; norm_num)
      (by intro p hp hpk; rw [List.mem_singleton] at hp; subst hp; norm_num)
  · exact (C2_update_rate_limiter_spacing "chat" 10).2 ⟨2, []⟩ ⟨2, [("chat", 10)]⟩
      [("chat", 11)]
      (by simp [ThreadedRateLimiter.can_update, lookupQ]; norm_num)
      (by intro p hp hpk; rw [List.mem_singleton] at hp; subst hp; norm_num)
